import Mathlib

/-!
Shallow embedding of the `paradex_hedger` repository (files `hedger.py`,
`utils.py`, `exceptions.py`, `config.py`) for checking the specification
claims.  Python `Decimal` values are modelled as rationals (`ℚ`): every
quantity handled by the code is an exact decimal fraction, so `ℚ` is a
faithful carrier.  The float literals `0.95` and `1.05` that the source
passes to the `Decimal` constructor are embedded as the exact binary64
values of those literals.  Exceptions are modelled by the inductive `PErr`
mirroring the class hierarchy of `exceptions.py` (plus Python's built-in
`ValueError` and a generic `other` for arbitrary transport errors), and
every venue API call issued by `place_orders` is recorded in a trace of
`Action`s.  The `while` loops of `_find_common_size` are embedded with an
explicit fuel parameter: `none` means the loop did not finish within the
given fuel, `some r` means it terminated with result `r`.  Interpolated
numeric values inside f-string error messages are elided from the embedded
message strings.
-/

namespace ParadexHedger

/-- Exact binary64 value of the Python float literal `0.95`
(the source writes `Decimal(0.95)`, which converts the float exactly). -/
def c095 : ℚ := 4278419646001971 / 4503599627370496

/-- Exact binary64 value of the Python float literal `1.05`
(the source writes `Decimal(1.05)`). -/
def c105 : ℚ := 4728779608739021 / 4503599627370496

/-- Truncation toward zero, the rounding used by Python `Decimal`
floor-division and remainder. -/
def ratTrunc (q : ℚ) : ℤ := if 0 ≤ q then q.floor else q.ceil

/-- Python `Decimal.__mod__`: `x - y * trunc(x / y)`.  For `y = 0` the
Python operation raises `InvalidOperation`; the embedding returns the
junk value `x` (division by zero is `0` in `ℚ`).  No theorem depends on
the value at a zero divisor: the one divergence statement that reaches a
zero divisor (`find_common_size_termination`) has its loop guard already
false by its first, well-defined conjunct, mirroring the short-circuit
of Python's `and` that keeps the real loop from ever evaluating the
zero-divisor modulo. -/
def decMod (x y : ℚ) : ℚ := x - y * (ratTrunc (x / y) : ℚ)

/-- Python `Decimal.__floordiv__`: the integer part of the quotient,
truncated toward zero, returned as a `Decimal`. -/
def decFloorDiv (x y : ℚ) : ℚ := (ratTrunc (x / y) : ℚ)

/-- `Decimal.to_integral_value(rounding=ROUND_UP)`: rounding away from
zero. -/
def roundUpAway (q : ℚ) : ℤ := if 0 ≤ q then q.ceil else q.floor

/-- `exchanges.paradex.types.OrderSide`. -/
inductive OrderSide where
  | Buy
  | Sell
deriving DecidableEq, Repr

/-- The side flip used for the reduce-only flattening order in
`place_orders` (`OrderSide.Sell if paradex_side == OrderSide.Buy else
OrderSide.Buy`). -/
def oppositeSide : OrderSide → OrderSide
  | OrderSide.Buy => OrderSide.Sell
  | OrderSide.Sell => OrderSide.Buy

/-- `utils.get_random_order_side`: the coin flip `random.choice([True,
False])` is passed in as the Boolean argument. -/
def get_random_order_side (coin : Bool) : String × String :=
  if coin then ("buy", "long") else ("sell", "short")

/-- `hedger.py` line 119: `paradex_side = OrderSide.Sell if bitget_side ==
"buy" else OrderSide.Buy`. -/
def paradexSideFor (bitgetSide : String) : OrderSide :=
  if bitgetSide = "buy" then OrderSide.Sell else OrderSide.Buy

/-- The exception values that flow through the embedded code, mirroring
the class hierarchy of `exceptions.py` together with Python's built-in
`ValueError` (raised by `_validate_size_constraints` and
`_validate_final_sizes`) and a generic `other` constructor standing for
any further exception a venue API call may raise. -/
inductive PErr where
  | exchangeErr (m : String)
  | insufficientFunds (m : String)
  | orderSizeErr (m : String)
  | orderSizeTooSmall (m : String)
  | orderSizeTooLarge (m : String)
  | orderCancelled (m : String)
  | hedgeErr (m : String)
  | paradexErr (m : String)
  | bitgetErr (m : String)
  | hedgePositionMismatch (m : String)
  | valueErr (m : String)
  | other (m : String)
deriving DecidableEq, Repr

/-- `str(error)`: the message carried by the exception. -/
def PErr.msg : PErr → String
  | .exchangeErr m => m
  | .insufficientFunds m => m
  | .orderSizeErr m => m
  | .orderSizeTooSmall m => m
  | .orderSizeTooLarge m => m
  | .orderCancelled m => m
  | .hedgeErr m => m
  | .paradexErr m => m
  | .bitgetErr m => m
  | .hedgePositionMismatch m => m
  | .valueErr m => m
  | .other m => m

/-- Membership test for `except OrderCancelledError` (the class has no
subclasses). -/
def isOrderCancelled : PErr → Bool
  | .orderCancelled _ => true
  | _ => false

/-- Membership test for the `OrderSizeError` class and its subclasses. -/
def isOrderSizeError : PErr → Bool
  | .orderSizeErr _ => true
  | .orderSizeTooSmall _ => true
  | .orderSizeTooLarge _ => true
  | _ => false

/-- Membership test for `BitgetError`. -/
def isBitgetError : PErr → Bool
  | .bitgetErr _ => true
  | _ => false

/-- Membership test for `HedgePositionMismatchError`. -/
def isMismatchError : PErr → Bool
  | .hedgePositionMismatch _ => true
  | _ => false

/-- `utils.calculate_position_value`.  The call to `random.uniform` is
modelled by the oracle `draw`; the position-USD limits sequence is passed
as its two entries. -/
def calculate_position_value (draw : ℚ → ℚ → ℚ)
    (minTradeAmount minLimit maxLimit availableBalance : ℚ) : Option ℚ :=
  let minPosition := max minTradeAmount minLimit
  let maxPosition := min maxLimit availableBalance
  if minPosition > maxPosition then none
  else some (draw minPosition maxPosition)

/-- The position-value selection of `execute_hedge_strategy` lines
168-172: `min_available_balance = min(paradex_balance, bitget_balance)`;
`min_trade_amount = max(min_notional_paradex, min_notional_bitget)`;
then `calculate_position_value`. -/
def positionValueSelection (draw : ℚ → ℚ → ℚ)
    (minNotionalA minNotionalB minLimit maxLimit balA balB : ℚ) : Option ℚ :=
  calculate_position_value draw (max minNotionalA minNotionalB)
    minLimit maxLimit (min balA balB)

/-- `HedgeManager._calculate_min_paradex_size`. -/
def calcMinParadexSize (minNotional price increment : ℚ) : ℚ :=
  let minSizeFromNotional := minNotional / price * c105
  (roundUpAway (minSizeFromNotional / increment) : ℚ) * increment

/-- `HedgeManager._calculate_max_bitget_size` (here `Decimal("0.95")` is
the exact decimal 19/20, built from a string). -/
def calcMaxBitgetSize (positionLimit openInterest multiplier : ℚ) : ℚ :=
  decFloorDiv (positionLimit * openInterest * (19 / 20)) multiplier * multiplier

/-- `HedgeManager._validate_size_constraints`: raises the built-in
`ValueError` (not an `exceptions.py` class) when a maximum is below the
corresponding minimum. -/
def validate_size_constraints
    (minParadexSize maxParadexSize minBitgetSize maxBitgetSize : ℚ) :
    Except PErr Unit :=
  if maxParadexSize < minParadexSize then
    Except.error (PErr.valueErr
      "Paradex max order size is less than min order size")
  else if maxBitgetSize < minBitgetSize then
    Except.error (PErr.valueErr
      "Bitget max order size is less than min order size")
  else Except.ok ()

/-- `HedgeManager._validate_final_sizes`. -/
def validate_final_sizes
    (paradexSize bitgetSize minParadexSize minBitgetSize
     paradexPrice bitgetPrice paradexBalance bitgetBalance : ℚ) :
    Except PErr Unit :=
  if paradexSize < minParadexSize then
    Except.error (PErr.valueErr
      "Calculated Paradex size is less than minimum")
  else if bitgetSize < minBitgetSize then
    Except.error (PErr.valueErr
      "Calculated Bitget size is less than minimum")
  else
    let paradexCost := paradexSize * paradexPrice
    let bitgetCost := bitgetSize * bitgetPrice
    if paradexCost > paradexBalance ∨ bitgetCost > bitgetBalance then
      Except.error (PErr.insufficientFunds
        "Calculated size exceeds available balance")
    else Except.ok ()

/-- The upward scan of `_find_common_size` (first `while` loop), with
explicit fuel: `none` = did not finish within the fuel, `some (some v)` =
returned `v`, `some none` = fell through the loop. -/
def upScan (ia ib target upper step : ℚ) : ℕ → ℚ → Option (Option ℚ)
  | 0, _ => none
  | fuel + 1, current =>
    if current ≤ upper then
      if decMod current ia = 0 ∧ decMod current ib = 0 ∧ target ≤ current then
        some (some current)
      else upScan ia ib target upper step fuel (current + step)
    else some none

/-- The downward scan of `_find_common_size` (second `while` loop), with
explicit fuel. -/
def downScan (ia ib low step : ℚ) : ℕ → ℚ → Option (Option ℚ)
  | 0, _ => none
  | fuel + 1, current =>
    if low ≤ current then
      if decMod current ia = 0 ∧ decMod current ib = 0 then
        some (some current)
      else downScan ia ib low step fuel (current - step)
    else some none

/-- `HedgeManager._find_common_size` with explicit fuel for its two
`while` loops: the outer `none` means a loop did not finish within the
fuel, `some r` is the function's Python return value. -/
def findCommonSizeFuel (fuel : ℕ)
    (paradexSize bitgetSize paradexIncrement bitgetMultiplier
     minParadexSize minBitgetSize
     maxAffordableParadexSize maxAffordableBitgetSize : ℚ) :
    Option (Option ℚ) :=
  let upperLimit := min maxAffordableParadexSize maxAffordableBitgetSize
  let minSize := max minParadexSize minBitgetSize
  let incrementStep := min paradexIncrement bitgetMultiplier
  let targetSize := max paradexSize bitgetSize
  match upScan paradexIncrement bitgetMultiplier targetSize upperLimit
      incrementStep fuel minSize with
  | none => none
  | some (some v) => some (some v)
  | some none =>
    match downScan paradexIncrement bitgetMultiplier minSize incrementStep
        fuel upperLimit with
    | none => none
    | some r => some r

/-- `execute_hedge_strategy` lines 178-183: raw size from the position
value (`(position_value / price) // increment * increment`). -/
def rawSize (positionValue price increment : ℚ) : ℚ :=
  decFloorDiv (positionValue / price) increment * increment

/-- `execute_hedge_strategy` lines 185-196: affordability cap
(`min(balance / price // increment * increment, maxSize)`). -/
def maxAffordable (balance price increment maxSize : ℚ) : ℚ :=
  min (decFloorDiv (balance / price) increment * increment) maxSize

/-- Python truthiness of the `Optional[Decimal]` result of
`_find_common_size` as used in `if common_size:` — `None` and
`Decimal(0)` are falsy. -/
def truthyDec : Option ℚ → Bool
  | none => false
  | some v => decide (v ≠ 0)

/-- `execute_hedge_strategy` lines 178-217: raw sizes, affordability
caps, the common-size search, and the size assignment (`if common_size:`
vs the independent fallback `min(size, maxSize, affordable)`).  Returns
`none` if the search ran out of fuel. -/
def resolveSizes
    (positionValue paradexPrice bitgetPrice paradexIncrement bitgetMultiplier
     minParadexSize minBitgetSize maxParadexSize maxBitgetSize
     paradexBalance bitgetBalance : ℚ) (fuel : ℕ) : Option (ℚ × ℚ) :=
  let paradexSize := rawSize positionValue paradexPrice paradexIncrement
  let bitgetSize := rawSize positionValue bitgetPrice bitgetMultiplier
  let affP := maxAffordable paradexBalance paradexPrice paradexIncrement
      maxParadexSize
  let affB := maxAffordable bitgetBalance bitgetPrice bitgetMultiplier
      maxBitgetSize
  match findCommonSizeFuel fuel paradexSize bitgetSize paradexIncrement
      bitgetMultiplier minParadexSize minBitgetSize affP affB with
  | none => none
  | some commonSize =>
    if truthyDec commonSize then
      some (commonSize.getD 0, commonSize.getD 0)
    else
      some (min paradexSize (min maxParadexSize affP),
            min bitgetSize (min maxBitgetSize affB))

/-- The response of `paradex_api.cancel_order`, as inspected by
`place_orders`: `cancel_order_response.get("error", "")`. -/
structure CancelResp where
  errorField : Option String
deriving DecidableEq, Repr

/-- The outcomes of the venue API calls that `place_orders` can issue,
supplied as an oracle: the leg-A placement (`place_paradex_order`,
including its internal `get_order` confirmation — an immediately
cancelled order surfaces as `OrderCancelledError`), the leg-B placement
(`place_bitget_order`, which raises `OrderCancelledError` when the venue
reply is not `success`), the cancel of leg A, and the reduce-only
flattening order. -/
structure VenueOutcomes where
  paradexPlace : Except PErr String
  bitgetPlace : Except PErr String
  cancelOutcome : Except PErr CancelResp
  flattenOutcome : Except PErr String

/-- One venue API call issued by the embedded code (recorded also when
the call itself raises). -/
inductive Action where
  | placeParadex (side : OrderSide) (size : ℚ) (reduceOnly : Bool)
  | placeBitget (side : String) (size : ℚ)
  | cancelParadex (orderId : String)
deriving DecidableEq, Repr

/-- Whether an action is the cancel of the leg-A order. -/
def isCancel : Action → Bool
  | .cancelParadex _ => true
  | _ => false

/-- Whether an action is a reduce-only (flattening) Paradex order. -/
def isFlatten : Action → Bool
  | .placeParadex _ _ reduceOnly => reduceOnly
  | _ => false

/-- Whether a trace contains a cancel of the leg-A order, i.e. whether
compensation was started. -/
def hasCancel (trace : List Action) : Bool := trace.any isCancel

/-- Whether a trace contains a reduce-only flattening order. -/
def hasFlatten (trace : List Action) : Bool := trace.any isFlatten

/-- `Except.ok`-test. -/
def exOk {ε α : Type} : Except ε α → Bool
  | .ok _ => true
  | .error _ => false

/-- The outer exception handlers of `place_orders` (lines 416-420):
`except OrderCancelledError: raise` re-raises the exception unchanged,
and `except Exception` wraps anything else in
`ParadexError(f"Paradex order failed: ...")`. -/
def outerHandle (e : PErr) : PErr :=
  if isOrderCancelled e then e
  else PErr.paradexErr ("Paradex order failed: " ++ e.msg)

/-- The compensation block duplicated in the two inner exception
handlers of `place_orders` (lines 377-392 and 397-412): cancel the leg-A
order; if the response reports `ORDER_IS_CLOSED`, place a reduce-only
market order on the opposite side for the original size.  `Except.error`
means an exception escaped the compensation block itself. -/
def compensate (o : VenueOutcomes) (orderId : String)
    (paradexSide : OrderSide) (paradexSize : ℚ) :
    Except PErr Unit × List Action :=
  match o.cancelOutcome with
  | .error e => (Except.error e, [Action.cancelParadex orderId])
  | .ok resp =>
    if resp.errorField.getD "" = "ORDER_IS_CLOSED" then
      match o.flattenOutcome with
      | .error e =>
        (Except.error e,
         [Action.cancelParadex orderId,
          Action.placeParadex (oppositeSide paradexSide) paradexSize true])
      | .ok _ =>
        (Except.ok (),
         [Action.cancelParadex orderId,
          Action.placeParadex (oppositeSide paradexSide) paradexSize true])
    else (Except.ok (), [Action.cancelParadex orderId])

/-- `HedgeManager.place_orders`: the two-leg placement with compensation,
returning the Python result (order-id pair or raised exception) together
with the trace of venue API calls issued.  The inner handlers re-raise
the leg-B `OrderCancelledError` unchanged and wrap any other leg-B
failure in `BitgetError`; both re-raises then pass through the outer
handlers, which re-raise `OrderCancelledError` and wrap everything else
in `ParadexError`. -/
def place_orders (o : VenueOutcomes) (paradexSide : OrderSide)
    (paradexSize : ℚ) (bitgetSide : String) (bitgetSize : ℚ) :
    Except PErr (String × String) × List Action :=
  match o.paradexPlace with
  | .error e =>
    (Except.error (outerHandle e),
     [Action.placeParadex paradexSide paradexSize false])
  | .ok paradexOrderId =>
    match o.bitgetPlace with
    | .ok bitgetOrderId =>
      (Except.ok (paradexOrderId, bitgetOrderId),
       [Action.placeParadex paradexSide paradexSize false,
        Action.placeBitget bitgetSide bitgetSize])
    | .error eb =>
      let comp := compensate o paradexOrderId paradexSide paradexSize
      let trace := Action.placeParadex paradexSide paradexSize false ::
        Action.placeBitget bitgetSide bitgetSize :: comp.2
      match comp.1 with
      | .error ec => (Except.error (outerHandle ec), trace)
      | .ok _ =>
        if isOrderCancelled eb then
          (Except.error (outerHandle eb), trace)
        else
          (Except.error (outerHandle
            (PErr.bitgetErr ("Bitget order failed: " ++ eb.msg))), trace)

/-- Whether the result of `place_orders` is a raised
`HedgePositionMismatchError`. -/
def resultIsMismatch (r : Except PErr (String × String) × List Action) :
    Bool :=
  match r.1 with
  | .error e => isMismatchError e
  | .ok _ => false

/-- Whether the result of `place_orders` is a raised `BitgetError`. -/
def resultIsBitget (r : Except PErr (String × String) × List Action) :
    Bool :=
  match r.1 with
  | .error e => isBitgetError e
  | .ok _ => false

/-- All data `execute_hedge_strategy` obtains from the venues and from
its random sources, gathered into one environment (the embedding assumes
the three Bitget data-presence checks pass; their failure paths are not
the subject of any claim). -/
structure HedgeEnv where
  paradexCollateral : ℚ
  bitgetAvailable : ℚ
  coin : Bool
  ask : ℚ
  bid : ℚ
  markPrice : ℚ
  orderSizeIncrement : ℚ
  minNotionalParadex : ℚ
  maxOrderSize : ℚ
  sizeMultiplier : ℚ
  minTradeUSDT : ℚ
  minTradeNum : ℚ
  posLimit : ℚ
  openInterest : ℚ
  draw : ℚ → ℚ → ℚ
  outcomes : VenueOutcomes

/-- `paradex_balance = prepare_paradex() * Decimal(0.95)`. -/
def pBalOf (env : HedgeEnv) : ℚ := env.paradexCollateral * c095

/-- `bitget_balance = prepare_bitget() * Decimal(0.95)`. -/
def bBalOf (env : HedgeEnv) : ℚ := env.bitgetAvailable * c095

/-- The Bitget side chosen by `get_random_order_side`. -/
def bSideOf (env : HedgeEnv) : String := (get_random_order_side env.coin).1

/-- The Paradex side derived from the Bitget side (line 119). -/
def pSideOf (env : HedgeEnv) : OrderSide := paradexSideFor (bSideOf env)

/-- `paradex_price = bbo["ask"] if paradex_side == OrderSide.Buy else
bbo["bid"]`. -/
def pPriceOf (env : HedgeEnv) : ℚ :=
  if pSideOf env = OrderSide.Buy then env.ask else env.bid

/-- `min_paradex_size` as computed at line 135. -/
def minPOf (env : HedgeEnv) : ℚ :=
  calcMinParadexSize env.minNotionalParadex (pPriceOf env)
    env.orderSizeIncrement

/-- `max_bitget_size` as computed at line 158. -/
def maxBOf (env : HedgeEnv) : ℚ :=
  calcMaxBitgetSize env.posLimit env.openInterest env.sizeMultiplier

/-- The `_validate_size_constraints` call at line 164. -/
def validateOf (env : HedgeEnv) : Except PErr Unit :=
  validate_size_constraints (minPOf env) env.maxOrderSize env.minTradeNum
    (maxBOf env)

/-- The position-value selection at lines 168-172, with the
`POSITION_USD_LIMITS = [50, 1000]` configuration. -/
def pvOf (env : HedgeEnv) : Option ℚ :=
  positionValueSelection env.draw env.minNotionalParadex env.minTradeUSDT
    50 1000 (pBalOf env) (bBalOf env)

/-- `HedgeManager.execute_hedge_strategy` after the venue fetches:
constraint validation, position-value selection, sizing, final
validation, then `place_orders`.  `none` means the common-size search
ran out of fuel; `some` carries the Python result and the trace of
orders placed/cancelled. -/
def executeHedgeFuel (fuel : ℕ) (env : HedgeEnv) :
    Option (Except PErr (String × String) × List Action) :=
  match validateOf env with
  | .error e => some (Except.error e, [])
  | .ok _ =>
    match pvOf env with
    | none =>
      some (Except.error (PErr.insufficientFunds
        "Insufficient funds on one of the exchanges"), [])
    | some positionValue =>
      match resolveSizes positionValue (pPriceOf env) env.markPrice
          env.orderSizeIncrement env.sizeMultiplier (minPOf env)
          env.minTradeNum env.maxOrderSize (maxBOf env) (pBalOf env)
          (bBalOf env) fuel with
      | none => none
      | some (paradexSize, bitgetSize) =>
        match validate_final_sizes paradexSize bitgetSize (minPOf env)
            env.minTradeNum (pPriceOf env) env.markPrice (pBalOf env)
            (bBalOf env) with
        | .error e => some (Except.error e, [])
        | .ok _ =>
          some (place_orders env.outcomes (pSideOf env) paradexSize
            (bSideOf env) bitgetSize)

/-- The venue-call oracle used by concrete executions in which both legs
succeed. -/
def oBothOk : VenueOutcomes :=
  ⟨Except.ok "paradex-1", Except.ok "bitget-1", Except.ok ⟨none⟩,
   Except.ok "flat-1"⟩

/-- Oracle: leg A succeeds, leg B fails with `OrderCancelledError`, the
cancel of leg A reports `ORDER_IS_CLOSED`, the flatten succeeds. -/
def oLegBFails : VenueOutcomes :=
  ⟨Except.ok "paradex-1",
   Except.error (PErr.orderCancelled "Order was cancelled"),
   Except.ok ⟨some "ORDER_IS_CLOSED"⟩, Except.ok "flat-1"⟩

/-- Oracle: leg A succeeds, leg B fails with a generic error, the cancel
of leg A itself raises. -/
def oCancelFails : VenueOutcomes :=
  ⟨Except.ok "paradex-1", Except.error (PErr.other "boom"),
   Except.error (PErr.other "cancel boom"), Except.ok "flat-1"⟩

/-- Oracle: leg A succeeds, leg B fails with `OrderCancelledError`, the
cancel of leg A succeeds outright. -/
def oLegBCancelled : VenueOutcomes :=
  ⟨Except.ok "paradex-1",
   Except.error (PErr.orderCancelled "Order was cancelled"),
   Except.ok ⟨none⟩, Except.ok "flat-1"⟩

/-- Oracle: leg A succeeds, leg B fails with a generic transport error,
the cancel of leg A succeeds outright. -/
def oLegBOther : VenueOutcomes :=
  ⟨Except.ok "paradex-1", Except.error (PErr.other "connection reset"),
   Except.ok ⟨none⟩, Except.ok "flat-1"⟩

/-- The `random.uniform` oracle that always draws the lower endpoint. -/
def drawLow : ℚ → ℚ → ℚ := fun a _ => a

/-- A concrete environment in which the Paradex minimum tradable size
(derived from the notional) exceeds the venue maximum order size. -/
def envConstraintGap : HedgeEnv :=
  { paradexCollateral := 1000, bitgetAvailable := 1000, coin := true,
    ask := 1, bid := 1, markPrice := 1,
    orderSizeIncrement := 1, minNotionalParadex := 100, maxOrderSize := 5,
    sizeMultiplier := 1, minTradeUSDT := 1, minTradeNum := 1,
    posLimit := 1, openInterest := 100,
    draw := drawLow, outcomes := oBothOk }

/-- Unfolding equation of `upScan` at positive fuel. -/
theorem upScan_succ (ia ib target upper step : ℚ) (fuel : ℕ) (current : ℚ) :
    upScan ia ib target upper step (fuel + 1) current =
      if current ≤ upper then
        if decMod current ia = 0 ∧ decMod current ib = 0 ∧ target ≤ current
        then some (some current)
        else upScan ia ib target upper step fuel (current + step)
      else some none := rfl

/-- Unfolding equation of `downScan` at positive fuel. -/
theorem downScan_succ (ia ib low step : ℚ) (fuel : ℕ) (current : ℚ) :
    downScan ia ib low step (fuel + 1) current =
      if low ≤ current then
        if decMod current ia = 0 ∧ decMod current ib = 0
        then some (some current)
        else downScan ia ib low step fuel (current - step)
      else some none := rfl

/-- Any value returned by the upward scan is a common multiple at least
the target, within the upper limit, and at least the starting point. -/
theorem upScan_sound (ia ib target upper step : ℚ) (hstep : 0 ≤ step) :
    ∀ (fuel : ℕ) (current v : ℚ),
      upScan ia ib target upper step fuel current = some (some v) →
      decMod v ia = 0 ∧ decMod v ib = 0 ∧ target ≤ v ∧ v ≤ upper ∧
        current ≤ v := by
  intro fuel
  induction fuel with
  | zero => intro current v h; simp [upScan] at h
  | succ n ih =>
    intro current v h
    rw [upScan_succ] at h
    by_cases h1 : current ≤ upper
    · rw [if_pos h1] at h
      by_cases h2 : decMod current ia = 0 ∧ decMod current ib = 0 ∧
          target ≤ current
      · rw [if_pos h2] at h
        simp only [Option.some.injEq] at h
        subst h
        exact ⟨h2.1, h2.2.1, h2.2.2, h1, le_refl _⟩
      · rw [if_neg h2] at h
        obtain ⟨d1, d2, ht, hu, hc⟩ := ih (current + step) v h
        exact ⟨d1, d2, ht, hu, by linarith⟩
    · rw [if_neg h1] at h
      simp at h

/-- Any value returned by the downward scan is a common multiple between
the lower bound and the starting point. -/
theorem downScan_sound (ia ib low step : ℚ) (hstep : 0 ≤ step) :
    ∀ (fuel : ℕ) (current v : ℚ),
      downScan ia ib low step fuel current = some (some v) →
      decMod v ia = 0 ∧ decMod v ib = 0 ∧ low ≤ v ∧ v ≤ current := by
  intro fuel
  induction fuel with
  | zero => intro current v h; simp [downScan] at h
  | succ n ih =>
    intro current v h
    rw [downScan_succ] at h
    by_cases h1 : low ≤ current
    · rw [if_pos h1] at h
      by_cases h2 : decMod current ia = 0 ∧ decMod current ib = 0
      · rw [if_pos h2] at h
        simp only [Option.some.injEq] at h
        subst h
        exact ⟨h2.1, h2.2, h1, le_refl _⟩
      · rw [if_neg h2] at h
        obtain ⟨d1, d2, hl, hc⟩ := ih (current - step) v h
        exact ⟨d1, d2, hl, by linarith⟩
    · rw [if_neg h1] at h
      simp at h

/-- If the downward scan falls through, no point of its grid inside the
range is a common multiple. -/
theorem downScan_complete (ia ib low step : ℚ) (hstep : 0 ≤ step) :
    ∀ (fuel : ℕ) (current : ℚ),
      downScan ia ib low step fuel current = some none →
      ∀ k : ℕ, low ≤ current - k * step →
        ¬(decMod (current - k * step) ia = 0 ∧
          decMod (current - k * step) ib = 0) := by
  intro fuel
  induction fuel with
  | zero => intro current h; simp [downScan] at h
  | succ n ih =>
    intro current h k hk
    rw [downScan_succ] at h
    by_cases h1 : low ≤ current
    · rw [if_pos h1] at h
      by_cases h2 : decMod current ia = 0 ∧ decMod current ib = 0
      · rw [if_pos h2] at h; simp at h
      · rw [if_neg h2] at h
        cases k with
        | zero => simpa using h2
        | succ m =>
          have hrw : current - ((m : ℚ) + 1) * step =
              (current - step) - m * step := by ring
          have hk2 : low ≤ (current - step) - m * step := by
            rw [← hrw]; simpa using hk
          have := ih (current - step) h m hk2
          simpa [hrw] using this
    · rw [if_neg h1] at h
      push_neg at h1
      have : (k : ℚ) * step ≥ 0 := mul_nonneg (Nat.cast_nonneg k) hstep
      exfalso
      linarith

/-- Once the current point is past the upper limit in at most `n` more
steps, the upward scan finishes within fuel `n + 1`. -/
theorem upScan_halts (ia ib target upper step : ℚ) :
    ∀ (n : ℕ) (current : ℚ), upper < current + n * step →
      ∃ r, upScan ia ib target upper step (n + 1) current = some r := by
  intro n
  induction n with
  | zero =>
    intro current h
    simp only [Nat.cast_zero, zero_mul, add_zero] at h
    rw [upScan_succ, if_neg (not_le.mpr h)]
    exact ⟨none, rfl⟩
  | succ m ih =>
    intro current h
    rw [upScan_succ]
    by_cases h1 : current ≤ upper
    · rw [if_pos h1]
      by_cases h2 : decMod current ia = 0 ∧ decMod current ib = 0 ∧
          target ≤ current
      · rw [if_pos h2]; exact ⟨some current, rfl⟩
      · rw [if_neg h2]
        apply ih (current + step)
        push_cast at h ⊢
        linarith
    · rw [if_neg h1]; exact ⟨none, rfl⟩

/-- Once the current point is below the lower bound in at most `n` more
steps, the downward scan finishes within fuel `n + 1`. -/
theorem downScan_halts (ia ib low step : ℚ) :
    ∀ (n : ℕ) (current : ℚ), current - n * step < low →
      ∃ r, downScan ia ib low step (n + 1) current = some r := by
  intro n
  induction n with
  | zero =>
    intro current h
    simp only [Nat.cast_zero, zero_mul, sub_zero] at h
    rw [downScan_succ, if_neg (not_le.mpr h)]
    exact ⟨none, rfl⟩
  | succ m ih =>
    intro current h
    rw [downScan_succ]
    by_cases h1 : low ≤ current
    · rw [if_pos h1]
      by_cases h2 : decMod current ia = 0 ∧ decMod current ib = 0
      · rw [if_pos h2]; exact ⟨some current, rfl⟩
      · rw [if_neg h2]
        apply ih (current - step)
        push_cast at h ⊢
        linarith
    · rw [if_neg h1]; exact ⟨none, rfl⟩

/-- With the zero step arising from a zero Bitget multiplier and an odd
starting point, the upward scan never finishes: instantiated at the
arguments reached from `_find_common_size (1, 1, 2, 0, 1, 1, 5, 5)`.
This mirrors the Python loop faithfully: there the guard first evaluates
`current % 2 == 0`, which is false at `current = 1`, and the
short-circuiting `and` never reaches the zero-divisor modulo, so the
loop advances by `current += 0` forever.  The proof below likewise
refutes the guard by its first conjunct alone, never inspecting the
embedded modulo at the zero divisor. -/
theorem upScan_zero_step_stuck :
    ∀ fuel : ℕ, upScan 2 0 1 5 0 fuel 1 = none := by
  intro fuel
  induction fuel with
  | zero => rfl
  | succ n ih =>
    rw [upScan_succ, if_pos (by norm_num : (1:ℚ) ≤ 5),
      if_neg (fun hcond =>
        absurd hcond.1 (by with_unfolding_all decide)), add_zero]
    exact ih

/-- Claim C1 (amended): under positive increments, every value returned
by the common-size search is divisible by both increments and lies in
`[minRequired, upperLimit]`; and the search returns `None` only when no
point of its downward scan grid (`upperLimit - k * step`, with
`step = min(ia, ib)`) inside the range is divisible by both increments.
(The original claim, that `None` is returned only when NO value in the
range is divisible by both increments, is refuted by
`find_common_size_misses_in_range_multiple`.) -/
theorem common_size_search_properties
    (fuel : ℕ) (pa ba ia ib minA minB affA affB : ℚ)
    (hia : 0 < ia) (hib : 0 < ib) :
    (∀ v, findCommonSizeFuel fuel pa ba ia ib minA minB affA affB =
        some (some v) →
      decMod v ia = 0 ∧ decMod v ib = 0 ∧
        max minA minB ≤ v ∧ v ≤ min affA affB) ∧
    (findCommonSizeFuel fuel pa ba ia ib minA minB affA affB = some none →
      ∀ k : ℕ, max minA minB ≤ min affA affB - k * min ia ib →
        ¬(decMod (min affA affB - k * min ia ib) ia = 0 ∧
          decMod (min affA affB - k * min ia ib) ib = 0)) := by
  have hstep : 0 ≤ min ia ib := le_min hia.le hib.le
  constructor
  · intro v h
    rcases hup : upScan ia ib (max pa ba) (min affA affB) (min ia ib) fuel
        (max minA minB) with _ | ov
    · simp only [findCommonSizeFuel, hup] at h
      simp at h
    · rcases ov with _ | w
      · simp only [findCommonSizeFuel, hup] at h
        rcases hdown : downScan ia ib (max minA minB) (min ia ib) fuel
            (min affA affB) with _ | od
        · rw [hdown] at h; simp at h
        · rw [hdown] at h
          simp only [Option.some.injEq] at h
          subst h
          obtain ⟨d1, d2, hl, hu⟩ :=
            downScan_sound ia ib (max minA minB) (min ia ib) hstep fuel
              (min affA affB) v hdown
          exact ⟨d1, d2, hl, hu⟩
      · simp only [findCommonSizeFuel, hup, Option.some.injEq] at h
        subst h
        obtain ⟨d1, d2, ht, hu, hc⟩ :=
          upScan_sound ia ib (max pa ba) (min affA affB) (min ia ib) hstep
            fuel (max minA minB) w hup
        exact ⟨d1, d2, hc, hu⟩
  · intro h k hk
    rcases hup : upScan ia ib (max pa ba) (min affA affB) (min ia ib) fuel
        (max minA minB) with _ | ov
    · simp only [findCommonSizeFuel, hup] at h
      simp at h
    · rcases ov with _ | w
      · simp only [findCommonSizeFuel, hup] at h
        rcases hdown : downScan ia ib (max minA minB) (min ia ib) fuel
            (min affA affB) with _ | od
        · rw [hdown] at h; simp at h
        · rw [hdown] at h
          rcases od with _ | w
          · exact downScan_complete ia ib (max minA minB) (min ia ib) hstep
              fuel (min affA affB) hdown k hk
          · simp at h
      · simp only [findCommonSizeFuel, hup] at h
        simp at h

/-- Claim C1, counterexample to the original completeness direction: for
increments `ia = 2`, `ib = 3`, range `[3, 9]` and target `3`, the search
returns `None` although `6` lies in the range and is divisible by both
increments (neither scan grid, stepping by `min(2, 3) = 2` from `3`
upward or from `9` downward, ever visits `6`). -/
theorem find_common_size_misses_in_range_multiple :
    findCommonSizeFuel 10 3 3 2 3 3 3 9 9 = some none ∧
    decMod 6 2 = 0 ∧ decMod 6 3 = 0 ∧
    max (3:ℚ) 3 ≤ 6 ∧ (6:ℚ) ≤ min 9 9 :=
  ⟨by with_unfolding_all rfl, by with_unfolding_all rfl,
   by with_unfolding_all rfl, by norm_num, by norm_num⟩

/-- Claim C1, witness: the search at increments `1, 1`, bounds `[1, 3]`,
target `2` returns `2`, and `common_size_search_properties` certifies its
divisibility and range properties. -/
theorem common_size_search_properties_witness :
    decMod 2 1 = 0 ∧ decMod 2 1 = 0 ∧
    max (1:ℚ) 1 ≤ 2 ∧ (2:ℚ) ≤ min 3 3 :=
  (common_size_search_properties 10 2 2 1 1 1 1 3 3 (by norm_num)
    (by norm_num)).1 2 (by with_unfolding_all rfl)

/-- Claim C10: with both increments strictly positive the two scan loops
of `_find_common_size` terminate (some fuel suffices), and the
positivity precondition is necessary: at `paradex_increment = 2`,
`bitget_multiplier = 0` and bounds `[1, 5]`, the step `min(2, 0)` is
zero, the guard's first divisibility test is false at the constant
current point `1` (so Python's short-circuiting `and` never evaluates
the zero-divisor modulo and the real loop spins forever), and the
function does not terminate for any fuel. -/
theorem find_common_size_termination :
    (∀ pa ba ia ib minA minB affA affB : ℚ, 0 < ia → 0 < ib →
      ∃ fuel r, findCommonSizeFuel fuel pa ba ia ib minA minB affA affB =
        some r) ∧
    (∀ fuel : ℕ, findCommonSizeFuel fuel 1 1 2 0 1 1 5 5 = none) := by
  constructor
  · intro pa ba ia ib minA minB affA affB hia hib
    have hstep : 0 < min ia ib := lt_min hia hib
    obtain ⟨n, hn⟩ :=
      exists_nat_gt ((min affA affB - max minA minB) / min ia ib)
    have hbound : min affA affB - max minA minB < n * min ia ib := by
      have := (div_lt_iff₀ hstep).mp hn
      linarith
    obtain ⟨r1, hr1⟩ := upScan_halts ia ib (max pa ba) (min affA affB)
      (min ia ib) n (max minA minB) (by linarith)
    rcases r1 with _ | v
    · obtain ⟨r2, hr2⟩ := downScan_halts ia ib (max minA minB) (min ia ib)
        n (min affA affB) (by linarith)
      refine ⟨n + 1, r2, ?_⟩
      simp only [findCommonSizeFuel, hr1, hr2]
    · refine ⟨n + 1, some v, ?_⟩
      simp only [findCommonSizeFuel, hr1]
  · intro fuel
    have h5 : min (5:ℚ) 5 = 5 := by norm_num
    have h1 : max (1:ℚ) 1 = 1 := by norm_num
    have h0 : min (2:ℚ) 0 = 0 := by norm_num
    simp only [findCommonSizeFuel, h5, h1, h0, upScan_zero_step_stuck fuel]

/-- Claim C10, witness: at increments `1, 1` the search terminates. -/
theorem find_common_size_termination_witness :
    ∃ fuel r, findCommonSizeFuel fuel 2 2 1 1 1 1 3 3 = some r :=
  find_common_size_termination.1 2 2 1 1 1 1 3 3 (by norm_num) (by norm_num)

/-- The compensation trace always begins with the cancel of the leg-A
order. -/
theorem compensate_starts_with_cancel (o : VenueOutcomes) (pid : String)
    (pS : OrderSide) (pSz : ℚ) :
    ∃ rest, (compensate o pid pS pSz).2 = Action.cancelParadex pid :: rest := by
  unfold compensate
  rcases o.cancelOutcome with e | resp
  · exact ⟨[], rfl⟩
  · dsimp only
    by_cases hr : resp.errorField.getD "" = "ORDER_IS_CLOSED"
    · rw [if_pos hr]
      rcases o.flattenOutcome with e | oid
      · exact ⟨[Action.placeParadex (oppositeSide pS) pSz true], rfl⟩
      · exact ⟨[Action.placeParadex (oppositeSide pS) pSz true], rfl⟩
    · rw [if_neg hr]
      exact ⟨[], rfl⟩

/-- When leg A was placed and leg B failed, the trace of `place_orders`
is the two placements followed by the compensation trace. -/
theorem place_orders_trace_on_leg_b_failure (o : VenueOutcomes)
    (pid : String) (eb : PErr) (pS : OrderSide) (pSz : ℚ)
    (bS : String) (bSz : ℚ)
    (hA : o.paradexPlace = Except.ok pid)
    (hB : o.bitgetPlace = Except.error eb) :
    (place_orders o pS pSz bS bSz).2 =
      Action.placeParadex pS pSz false :: Action.placeBitget bS bSz ::
        (compensate o pid pS pSz).2 := by
  unfold place_orders
  rw [hA, hB]
  rcases hc : (compensate o pid pS pSz).1 with e | u
  · simp [hc]
  · by_cases heb : isOrderCancelled eb = true
    · simp [hc, heb]
    · simp [hc, heb]

/-- Whenever leg A succeeded and leg B failed, the cancel of leg A is
issued. -/
theorem hasCancel_of_legA_ok_legB_fail (o : VenueOutcomes)
    (pid : String) (eb : PErr) (pS : OrderSide) (pSz : ℚ)
    (bS : String) (bSz : ℚ)
    (hA : o.paradexPlace = Except.ok pid)
    (hB : o.bitgetPlace = Except.error eb) :
    hasCancel (place_orders o pS pSz bS bSz).2 = true := by
  rw [place_orders_trace_on_leg_b_failure o pid eb pS pSz bS bSz hA hB]
  obtain ⟨rest, hrest⟩ := compensate_starts_with_cancel o pid pS pSz
  rw [hrest]
  simp [hasCancel, isCancel]

/-- Claim C2: in every execution of `place_orders`, compensation (the
cancel of the leg-A order) is invoked exactly when the leg-A placement
succeeded and the leg-B placement failed; when leg-A placement itself
fails, the only venue call issued is that failed placement — no cancel
and no flatten. -/
theorem place_orders_compensation_iff (o : VenueOutcomes)
    (pS : OrderSide) (pSz : ℚ) (bS : String) (bSz : ℚ) :
    (hasCancel (place_orders o pS pSz bS bSz).2 = true ↔
      exOk o.paradexPlace = true ∧ exOk o.bitgetPlace = false) ∧
    (exOk o.paradexPlace = false →
      (place_orders o pS pSz bS bSz).2 =
        [Action.placeParadex pS pSz false]) := by
  constructor
  · constructor
    · intro h
      rcases hA : o.paradexPlace with e | pid
      · rw [show (place_orders o pS pSz bS bSz) =
            (Except.error (outerHandle e),
              [Action.placeParadex pS pSz false]) by
            unfold place_orders; rw [hA]] at h
        simp [hasCancel, isCancel] at h
      · rcases hB : o.bitgetPlace with eb | bid
        · simp [exOk, hA, hB]
        · rw [show (place_orders o pS pSz bS bSz) =
              (Except.ok (pid, bid),
                [Action.placeParadex pS pSz false,
                 Action.placeBitget bS bSz]) by
              unfold place_orders; rw [hA, hB]] at h
          simp [hasCancel, isCancel] at h
    · rintro ⟨h1, h2⟩
      rcases hA : o.paradexPlace with e | pid
      · rw [hA] at h1; simp [exOk] at h1
      · rcases hB : o.bitgetPlace with eb | bid
        · exact hasCancel_of_legA_ok_legB_fail o pid eb pS pSz bS bSz hA hB
        · rw [hB] at h2; simp [exOk] at h2
  · intro h
    rcases hA : o.paradexPlace with e | pid
    · unfold place_orders; rw [hA]
    · rw [hA] at h; simp [exOk] at h

/-- Claim C2, witness: with leg A placed and leg B failed, the cancel is
issued. -/
theorem place_orders_compensation_iff_witness :
    hasCancel (place_orders oLegBFails OrderSide.Buy 1 "sell" 1).2 = true :=
  (place_orders_compensation_iff oLegBFails OrderSide.Buy 1 "sell" 1).1.mpr
    ⟨by with_unfolding_all rfl, by with_unfolding_all rfl⟩

/-- Claim C6: when leg B failed after leg A was placed and the cancel of
leg A returns a response, a response reporting `ORDER_IS_CLOSED` always
yields exactly one cancel followed by exactly one reduce-only market
order on the opposite side of leg A for its original size (never a
second cancel), and a response not reporting it yields the cancel alone
with no further order. -/
theorem place_orders_flatten_on_closed (o : VenueOutcomes)
    (pid : String) (eb : PErr) (resp : CancelResp)
    (pS : OrderSide) (pSz : ℚ) (bS : String) (bSz : ℚ)
    (hA : o.paradexPlace = Except.ok pid)
    (hB : o.bitgetPlace = Except.error eb)
    (hC : o.cancelOutcome = Except.ok resp) :
    (resp.errorField.getD "" = "ORDER_IS_CLOSED" →
      (place_orders o pS pSz bS bSz).2 =
        [Action.placeParadex pS pSz false, Action.placeBitget bS bSz,
         Action.cancelParadex pid,
         Action.placeParadex (oppositeSide pS) pSz true] ∧
      List.countP isCancel (place_orders o pS pSz bS bSz).2 = 1) ∧
    (¬(resp.errorField.getD "" = "ORDER_IS_CLOSED") →
      (place_orders o pS pSz bS bSz).2 =
        [Action.placeParadex pS pSz false, Action.placeBitget bS bSz,
         Action.cancelParadex pid] ∧
      List.countP isCancel (place_orders o pS pSz bS bSz).2 = 1 ∧
      hasFlatten (place_orders o pS pSz bS bSz).2 = false) := by
  have htrace := place_orders_trace_on_leg_b_failure o pid eb pS pSz bS bSz
    hA hB
  constructor
  · intro hr
    have hcomp : (compensate o pid pS pSz).2 =
        [Action.cancelParadex pid,
         Action.placeParadex (oppositeSide pS) pSz true] := by
      unfold compensate
      rw [hC]
      dsimp only
      rw [if_pos hr]
      rcases o.flattenOutcome with e | oid
      · rfl
      · rfl
    rw [htrace, hcomp]
    refine ⟨rfl, ?_⟩
    simp [List.countP_cons, isCancel]
  · intro hr
    have hcomp : (compensate o pid pS pSz).2 =
        [Action.cancelParadex pid] := by
      unfold compensate
      rw [hC]
      dsimp only
      rw [if_neg hr]
    rw [htrace, hcomp]
    refine ⟨rfl, ?_, ?_⟩
    · simp [List.countP_cons, isCancel]
    · simp [hasFlatten, isFlatten]

/-- Claim C6, witness: at the concrete oracle whose cancel reports
`ORDER_IS_CLOSED`, exactly one reduce-only opposite-side order for the
original size follows the single cancel. -/
theorem place_orders_flatten_on_closed_witness :
    (place_orders oLegBFails OrderSide.Buy 1 "sell" 1).2 =
      [Action.placeParadex OrderSide.Buy 1 false,
       Action.placeBitget "sell" 1,
       Action.cancelParadex "paradex-1",
       Action.placeParadex (oppositeSide OrderSide.Buy) 1 true] ∧
    List.countP isCancel (place_orders oLegBFails OrderSide.Buy 1 "sell" 1).2
      = 1 :=
  (place_orders_flatten_on_closed oLegBFails "paradex-1"
    (PErr.orderCancelled "Order was cancelled") ⟨some "ORDER_IS_CLOSED"⟩
    OrderSide.Buy 1 "sell" 1 rfl rfl rfl).1 (by with_unfolding_all rfl)

/-- Claim C3 (code bug): at the failing input where leg A is placed, leg
B fails and the cancel of leg A itself raises, `place_orders` surfaces a
`ParadexError` wrapping the compensation failure (the code never raises
`HedgePositionMismatchError`: that class is defined in `exceptions.py`
precisely for this situation but is never imported by `hedger.py`). -/
theorem compensation_failure_error_kind :
    (place_orders oCancelFails OrderSide.Buy 1 "sell" 1).1 =
      Except.error (PErr.paradexErr "Paradex order failed: cancel boom") ∧
    resultIsMismatch (place_orders oCancelFails OrderSide.Buy 1 "sell" 1)
      = false ∧
    hasCancel (place_orders oCancelFails OrderSide.Buy 1 "sell" 1).2 = true :=
  ⟨by with_unfolding_all rfl, by with_unfolding_all rfl,
   by with_unfolding_all rfl⟩

/-- Claim C4 (code bug): when leg B fails with `OrderCancelledError` and
compensation succeeds, the surfaced error is the cancellation error
itself (the claim says a wrapped `BitgetError`); when leg B fails with
any other error, the inner `BitgetError` wrap is itself re-wrapped by
the outer handler into a `ParadexError`, so no execution surfaces a
`BitgetError`. -/
theorem leg_b_failure_surfaced_error :
    (place_orders oLegBCancelled OrderSide.Buy 1 "sell" 1).1 =
      Except.error (PErr.orderCancelled "Order was cancelled") ∧
    resultIsBitget (place_orders oLegBCancelled OrderSide.Buy 1 "sell" 1)
      = false ∧
    (place_orders oLegBOther OrderSide.Buy 1 "sell" 1).1 =
      Except.error (PErr.paradexErr
        "Paradex order failed: Bitget order failed: connection reset") ∧
    resultIsBitget (place_orders oLegBOther OrderSide.Buy 1 "sell" 1)
      = false :=
  ⟨by with_unfolding_all rfl, by with_unfolding_all rfl,
   by with_unfolding_all rfl, by with_unfolding_all rfl⟩

/-- Claim C9: for both outcomes of the random side selection the Paradex
side is `Buy` exactly when the Bitget side is `"sell"` and `Sell`
exactly when it is `"buy"`; and whenever leg A was placed and leg B
failed, the explicit unwind of leg A (its cancel) is issued before the
attempt ends. -/
theorem hedge_sides_opposite_and_unwind :
    (∀ coin : Bool,
      (paradexSideFor (get_random_order_side coin).1 = OrderSide.Buy ↔
        (get_random_order_side coin).1 = "sell") ∧
      (paradexSideFor (get_random_order_side coin).1 = OrderSide.Sell ↔
        (get_random_order_side coin).1 = "buy")) ∧
    (∀ (o : VenueOutcomes) (pid : String) (eb : PErr) (pS : OrderSide)
        (pSz : ℚ) (bS : String) (bSz : ℚ),
      o.paradexPlace = Except.ok pid → o.bitgetPlace = Except.error eb →
      hasCancel (place_orders o pS pSz bS bSz).2 = true) := by
  constructor
  · decide
  · intro o pid eb pS pSz bS bSz hA hB
    exact hasCancel_of_legA_ok_legB_fail o pid eb pS pSz bS bSz hA hB

/-- Claim C9, witness: at a concrete failed-leg-B execution the unwind is
issued, and the concrete side pairing is opposite. -/
theorem hedge_sides_opposite_and_unwind_witness :
    hasCancel (place_orders oLegBFails OrderSide.Sell 2 "buy" 2).2 = true :=
  hedge_sides_opposite_and_unwind.2 oLegBFails "paradex-1"
    (PErr.orderCancelled "Order was cancelled") OrderSide.Sell 2 "buy" 2
    rfl rfl

/-- Claim C5 (amended): in the sizing step of `execute_hedge_strategy`,
if the common-size search returns a NONZERO size, both legs are assigned
that identical size; if it returns `None` — or the Python-falsy size
zero, which `if common_size:` treats like `None` — each leg is
independently assigned `min(rawSize, maxSize, affordable)` for its own
venue.  (The original claim, which gives the identical-assignment
behaviour for every returned size, fails at size zero:
`resolve_sizes_zero_common_counterexample`.) -/
theorem resolve_sizes_assignment
    (pv pPrice bPrice inc mult minP minB maxP maxB pBal bBal : ℚ)
    (fuel : ℕ) :
    (∀ v, findCommonSizeFuel fuel (rawSize pv pPrice inc)
        (rawSize pv bPrice mult) inc mult minP minB
        (maxAffordable pBal pPrice inc maxP)
        (maxAffordable bBal bPrice mult maxB) = some (some v) → v ≠ 0 →
      resolveSizes pv pPrice bPrice inc mult minP minB maxP maxB pBal bBal
        fuel = some (v, v)) ∧
    (∀ c, findCommonSizeFuel fuel (rawSize pv pPrice inc)
        (rawSize pv bPrice mult) inc mult minP minB
        (maxAffordable pBal pPrice inc maxP)
        (maxAffordable bBal bPrice mult maxB) = some c →
      (c = none ∨ c = some 0) →
      resolveSizes pv pPrice bPrice inc mult minP minB maxP maxB pBal bBal
        fuel = some
          (min (rawSize pv pPrice inc)
            (min maxP (maxAffordable pBal pPrice inc maxP)),
           min (rawSize pv bPrice mult)
            (min maxB (maxAffordable bBal bPrice mult maxB)))) := by
  constructor
  · intro v h hv
    unfold resolveSizes
    dsimp only
    rw [h]
    simp [truthyDec, hv]
  · intro c h hc
    unfold resolveSizes
    dsimp only
    rw [h]
    rcases hc with rfl | rfl
    · simp [truthyDec]
    · simp [truthyDec]

/-- Claim C5, counterexample to the original claim: at position value 50,
Paradex price 10000, Bitget price 10, both increments 0.01, minimum
sizes 0, Paradex maximum 10, Bitget maximum 95, balances 57 and 95, the
common-size search returns the size 0, yet the legs are assigned the
differing fallback sizes (0, 5) rather than both receiving the returned
size. -/
theorem resolve_sizes_zero_common_counterexample :
    findCommonSizeFuel 5 (rawSize 50 10000 (1/100)) (rawSize 50 10 (1/100))
        (1/100) (1/100) 0 0 (maxAffordable 57 10000 (1/100) 10)
        (maxAffordable 95 10 (1/100) 95) = some (some 0) ∧
    resolveSizes 50 10000 10 (1/100) (1/100) 0 0 10 95 57 95 5
      = some (0, 5) :=
  ⟨by with_unfolding_all rfl, by with_unfolding_all rfl⟩

/-- Claim C5, witness: with a nonzero common size the two legs receive
that identical size. -/
theorem resolve_sizes_assignment_witness :
    resolveSizes 100 10 10 1 1 1 1 100 100 1000 1000 20 = some (10, 10) :=
  (resolve_sizes_assignment 100 10 10 1 1 1 1 100 100 1000 1000 20).1 10
    (by with_unfolding_all rfl) (by norm_num)

/-- Claim C7 (amended): when either venue's computed maximum tradable
size is strictly below its computed minimum, `execute_hedge_strategy`
fails fast with Python's built-in `ValueError` — not with
`OrderSizeError` as the claim states — before any order is placed (the
trace of venue order calls is empty). -/
theorem validate_fails_fast_before_orders (fuel : ℕ) (env : HedgeEnv)
    (h : env.maxOrderSize < minPOf env ∨ maxBOf env < env.minTradeNum) :
    ∃ m, executeHedgeFuel fuel env =
      some (Except.error (PErr.valueErr m), []) := by
  unfold executeHedgeFuel validateOf validate_size_constraints
  by_cases h1 : env.maxOrderSize < minPOf env
  · rw [if_pos h1]
    exact ⟨_, rfl⟩
  · rcases h with h | h
    · exact absurd h h1
    · rw [if_neg h1, if_pos h]
      exact ⟨_, rfl⟩

/-- Claim C7, counterexample to the stated error kind: at a concrete
environment with Paradex minimum size 106 and maximum 5, the attempt
stops with an empty trace and a `ValueError`, which is not an
`OrderSizeError`. -/
theorem validate_value_error_not_order_size_error :
    executeHedgeFuel 1 envConstraintGap =
      some (Except.error (PErr.valueErr
        "Paradex max order size is less than min order size"), []) ∧
    isOrderSizeError (PErr.valueErr
      "Paradex max order size is less than min order size") = false :=
  ⟨by with_unfolding_all rfl, rfl⟩

/-- Claim C7, witness: the fail-fast theorem applied at the concrete
constraint-gap environment. -/
theorem validate_fails_fast_before_orders_witness :
    ∃ m, executeHedgeFuel 1 envConstraintGap =
      some (Except.error (PErr.valueErr m), []) :=
  validate_fails_fast_before_orders 1 envConstraintGap
    (Or.inl (by with_unfolding_all decide))

/-- Claim C8: the position-value selection computes
`minPosition = max(minNotional_A, minNotional_B, configuredMinUSD)` and
`maxPosition = min(configuredMaxUSD, min(balanceA, balanceB))`; it
signals failure (`None`, which `execute_hedge_strategy` converts to
`InsufficientFundsError`) exactly when `minPosition > maxPosition`, and
otherwise — for any draw respecting the `random.uniform` contract —
yields a value in `[minPosition, maxPosition]`.  With
`configuredMinUSD = 50`, `configuredMaxUSD = 1000`, `balanceA = 40`,
`balanceB = 500`, the maximum position is 40 and any minimum above 40
yields the failure. -/
theorem position_value_selection_spec :
    (∀ (draw : ℚ → ℚ → ℚ) (nA nB minUSD maxUSD balA balB : ℚ),
      (positionValueSelection draw nA nB minUSD maxUSD balA balB = none ↔
        min maxUSD (min balA balB) < max (max nA nB) minUSD) ∧
      ((∀ a b : ℚ, a ≤ b → a ≤ draw a b ∧ draw a b ≤ b) →
        ∀ v, positionValueSelection draw nA nB minUSD maxUSD balA balB
            = some v →
          max (max nA nB) minUSD ≤ v ∧ v ≤ min maxUSD (min balA balB)) ∧
      (min (1000:ℚ) (min 40 500) = 40) ∧
      (40 < max (max nA nB) (50:ℚ) →
        positionValueSelection draw nA nB 50 1000 40 500 = none)) ∧
    (∀ (fuel : ℕ) (env : HedgeEnv), validateOf env = Except.ok () →
      pvOf env = none →
      executeHedgeFuel fuel env = some (Except.error (PErr.insufficientFunds
        "Insufficient funds on one of the exchanges"), [])) := by
  constructor
  · intro draw nA nB minUSD maxUSD balA balB
    refine ⟨?_, ?_, by norm_num, ?_⟩
    · unfold positionValueSelection calculate_position_value
      by_cases h : max (max nA nB) minUSD > min maxUSD (min balA balB)
      · rw [if_pos h]
        exact ⟨fun _ => h, fun _ => rfl⟩
      · rw [if_neg h]
        constructor
        · intro hx; exact Option.noConfusion hx
        · intro hlt; exact absurd hlt h
    · intro hdraw v hv
      unfold positionValueSelection calculate_position_value at hv
      by_cases h : max (max nA nB) minUSD > min maxUSD (min balA balB)
      · rw [if_pos h] at hv
        simp at hv
      · rw [if_neg h] at hv
        simp only [Option.some.injEq] at hv
        subst hv
        exact hdraw _ _ (not_lt.mp h)
    · intro h
      unfold positionValueSelection calculate_position_value
      rw [show min (1000:ℚ) (min 40 500) = 40 from by norm_num]
      rw [if_pos h]
  · intro fuel env h hpv
    unfold executeHedgeFuel
    rw [h, show pvOf env = none from hpv]

/-- Claim C8, witness: with notionals 60 and 0 and the stated balances,
the minimum position 60 exceeds the maximum 40 and the selection fails. -/
theorem position_value_selection_spec_witness :
    positionValueSelection drawLow 60 0 50 1000 40 500 = none :=
  (position_value_selection_spec.1 drawLow 60 0 50 1000 40 500).2.2.2
    (by norm_num)

end ParadexHedger
